import Mathlib

/-!
Shallow embedding of the LevelDB Windows port layer (src/port/port_win.cc):
the Env facade with its background task queue, the three file-handle
classes, the file lock, the logger and the directory operations.
Definitions are translated from the C++ source; theorems settle the
specification claims about them.
-/

namespace LevelDBPort

/-- Engine-neutral outcome type mirroring leveldb::Status as used by the
port layer: success, or an I/O error carrying a context and a message. -/
inductive Status where
  | ok : Status
  | ioError : String → String → Status
deriving DecidableEq, Repr

/-- Mirrors strerror(errno): an OS-supplied message for an error number. -/
def strerror (e : Nat) : String :=
  "oserr " ++ Nat.repr e

/-- Mirrors the file-local helper IOError(context, err_number). -/
def IOError (context : String) (errNumber : Nat) : Status :=
  Status.ioError context (strerror errNumber)

/-!
## C stdio stream model (FILE*)

A FILE* opened for reading is modelled by its byte content, the current
position, the end-of-file indicator, and whether the underlying device
fails on the next read for a reason other than end-of-file (with the
errno it would report).
-/

/-- Model of a C stdio input stream (FILE*). -/
structure CFile where
  content : List Nat
  pos : Nat
  eofFlag : Bool
  deviceError : Bool
  errno : Nat
deriving DecidableEq, Repr

/-- Mirrors _fread_nolock(scratch, 1, n, file): on a healthy device it
reads min(n, bytes-remaining) bytes and sets the end-of-file indicator
when it could not deliver all n bytes; on a failing device it reads
nothing and leaves the end-of-file indicator alone. Returns the bytes
delivered together with the updated stream. -/
def freadNolock (n : Nat) (f : CFile) : List Nat × CFile :=
  if f.deviceError then
    ([], f)
  else
    let avail := f.content.length - f.pos
    let r := min n avail
    ((f.content.drop f.pos).take r,
     { f with pos := f.pos + r, eofFlag := f.eofFlag || decide (r < n) })

/-- Conversion of a uint64_t to a C long as on Windows (LLP64: long is a
32-bit signed integer); this is what happens to the argument of
fseek(file_, n, SEEK_CUR) in _WinSequentialFile::Skip. -/
def toLong (n : Nat) : Int :=
  let m : Nat := n % 2 ^ 32
  if m < 2 ^ 31 then (m : Int) else (m : Int) - 2 ^ 32

/-- Mirrors fseek(f, off, SEEK_CUR): fails (returns none, as the nonzero
C return) when the resulting position would be negative; on success moves
the position and clears the end-of-file indicator. -/
def fseekCur (f : CFile) (off : Int) : Option CFile :=
  let newPos : Int := (f.pos : Int) + off
  if newPos < 0 then none
  else some { f with pos := newPos.toNat, eofFlag := false }

/-!
## _WinSequentialFile
-/

/-- Model of _WinSequentialFile: a file name and the owned FILE*. -/
structure WinSequentialFile where
  filename : String
  file : CFile
deriving DecidableEq, Repr

/-- Result of _WinSequentialFile::Read: the Status, the Slice written
through the result out-parameter, and the stream after the call. -/
structure SeqReadResult where
  status : Status
  result : List Nat
  file : CFile
deriving DecidableEq, Repr

/-- Translation of _WinSequentialFile::Read (port_win.cc:115-130):
r = _fread_nolock(...); *result = Slice(scratch, r); if r < n then
end-of-file leaves the status OK while any other shortfall reports
IOError(filename_, errno). -/
def WinSequentialFile.Read (sf : WinSequentialFile) (n : Nat) : SeqReadResult :=
  let rf := freadNolock n sf.file
  let slice := rf.1
  let f' := rf.2
  if slice.length < n then
    if f'.eofFlag then
      { status := Status.ok, result := slice, file := f' }
    else
      { status := IOError sf.filename f'.errno, result := slice, file := f' }
  else
    { status := Status.ok, result := slice, file := f' }

/-- Translation of _WinSequentialFile::Skip (port_win.cc:132-139):
fseek(file_, n, SEEK_CUR) with n converted to a 32-bit long; a failed
seek reports IOError(filename_, errno), a successful one returns OK. -/
def WinSequentialFile.Skip (sf : WinSequentialFile) (n : Nat) : Status × CFile :=
  match fseekCur sf.file (toLong n) with
  | none => (IOError sf.filename sf.file.errno, sf.file)
  | some f' => (Status.ok, f')

/-!
## _WinWritableFile

The owned std::ofstream is modelled by its open flag, the bytes sitting
in the user-space stream buffer, the bytes already handed to the OS, and
the bytes persisted on stable storage (which only an explicit OS
persistence request could grow). Two flags say whether the underlying
stream raises an exception on flush or on close, and two ghost counters
record how often the underlying flush and close were actually invoked.
-/

/-- Exceptions thrown by the underlying stream operations. -/
inductive Exn where
  | streamFailure : Exn
deriving DecidableEq, Repr

/-- Model of the std::ofstream owned by _WinWritableFile. -/
structure OFStream where
  isOpen : Bool
  userBuf : List Nat
  osBuf : List Nat
  stable : List Nat
  flushThrows : Bool
  closeThrows : Bool
  flushCalls : Nat
  closeCalls : Nat
deriving DecidableEq, Repr

/-- Underlying std::ofstream::flush: pushes the user-space buffer to the
OS, or raises. It never touches stable storage. -/
def streamFlush (s : OFStream) : Except Exn OFStream :=
  if s.flushThrows then Except.error Exn.streamFailure
  else Except.ok { s with
    osBuf := s.osBuf ++ s.userBuf
    userBuf := []
    flushCalls := s.flushCalls + 1 }

/-- Underlying std::ofstream::close: flushes pending output to the OS
and releases the stream, or raises. It never touches stable storage. -/
def streamClose (s : OFStream) : Except Exn OFStream :=
  if s.closeThrows then Except.error Exn.streamFailure
  else Except.ok { s with
    osBuf := s.osBuf ++ s.userBuf
    userBuf := []
    isOpen := false
    closeCalls := s.closeCalls + 1 }

/-- Translation of _WinWritableFile::Flush (port_win.cc:251-255):
file_.flush(); return OK. There is no try block here, so a stream
exception propagates to the caller. -/
def WinWritableFile.Flush (s : OFStream) : Except Exn (OFStream × Status) :=
  match streamFlush s with
  | Except.error e => Except.error e
  | Except.ok s' => Except.ok (s', Status.ok)

/-- Translation of _WinWritableFile::Sync (port_win.cc:257-266):
try { Flush(); } catch (e) { return IOError(path + " sync", e.what()); }
return OK. The catch converts the exception into a status, so Sync
itself never throws. -/
def WinWritableFile.Sync (s : OFStream) : OFStream × Status :=
  match WinWritableFile.Flush s with
  | Except.ok r => (r.1, Status.ok)
  | Except.error _ => (s, Status.ioError "path sync" "stream failure")

/-- Translation of _WinWritableFile::Close (port_win.cc:237-249):
try { if (file_.is_open()) { Sync(); file_.close(); } } catch (e)
{ return IOError(path + " close", e.what()); } return OK. The status
of the inner Sync call is discarded, exactly as in the source. -/
def WinWritableFile.Close (s : OFStream) : OFStream × Status :=
  if s.isOpen then
    let s1 := (WinWritableFile.Sync s).1
    match streamClose s1 with
    | Except.ok s2 => (s2, Status.ok)
    | Except.error _ => (s1, Status.ioError "path close" "stream failure")
  else
    (s, Status.ok)

/-!
## _WinFileLock and _WinEnv::UnlockFile

A FileLock pointer is modelled as an optional address into a heap of
live _WinFileLock objects. Deleting an address that is no longer live is
a double free: the model returns none for it (undefined behavior),
mirroring that the C++ has no defined result there.
-/

/-- A Windows HANDLE, with INVALID_HANDLE_VALUE as -1. -/
abbrev HANDLE := Int

/-- The Windows INVALID_HANDLE_VALUE constant. -/
def INVALID_HANDLE_VALUE : HANDLE := -1

/-- Model of _WinFileLock: it owns one OS handle. -/
structure WinFileLock where
  file : HANDLE
deriving DecidableEq, Repr

/-- Observable OS calls made while releasing a lock. -/
inductive OSEffect where
  | closeHandle : HANDLE → OSEffect
deriving DecidableEq, Repr

/-- Translation of the destructor _WinFileLock::~_WinFileLock
(port_win.cc:283-288): CloseHandle(file_) when the handle is valid. -/
def winFileLockDtor (l : WinFileLock) : List OSEffect :=
  if l.file ≠ INVALID_HANDLE_VALUE then [OSEffect.closeHandle l.file] else []

/-- Heap of live _WinFileLock objects, keyed by address. -/
abbrev LockHeap := List (Nat × WinFileLock)

/-- Looks an address up in the lock heap. -/
def lockAt : LockHeap → Nat → Option WinFileLock
  | [], _ => none
  | (q, l) :: rest, p => if q = p then some l else lockAt rest p

/-- C++ delete on a _WinFileLock pointer: undefined behavior (none) when
the address is not a live object, otherwise runs the destructor and
frees the object. -/
def deleteLock (heap : LockHeap) (ptr : Nat) : Option (LockHeap × List OSEffect) :=
  match lockAt heap ptr with
  | none => none
  | some l => some (heap.filter (fun e => e.1 != ptr), winFileLockDtor l)

/-- Translation of _WinEnv::UnlockFile (port_win.cc:605-612):
if (lock != nullptr) delete lock; return OK. The result is none when
the delete itself is undefined (freeing a dead pointer). -/
def UnlockFile (heap : LockHeap) (lock : Option Nat) :
    Option (LockHeap × List OSEffect × Status) :=
  match lock with
  | none => some (heap, [], Status.ok)
  | some ptr =>
    match deleteLock heap ptr with
    | none => none
    | some r => some (r.1, r.2, Status.ok)

/-!
## _WinEnv::Schedule and _WinEnv::BGThread

Every access to the queue in the source happens inside a critical
section of the single mutex mu_ (Schedule holds it from entry until
after the push_back; BGThread holds it around the emptiness test and the
pop_front), so an interleaving of threads is faithfully modelled at the
granularity of those critical sections: each one is a single atomic
transition. A task is identified by the function-pointer/argument pair
it binds, modelled as an opaque number. The fields submitted and
executed are ghost histories recording the order of queue appends and of
completed task executions.
-/

/-- A deferred unit of work: the bound function/argument pair. -/
abbrev Task := Nat

/-- The scheduling state of a _WinEnv: the deque queue_, whether
bgthread_ is non-null, the task the worker is currently running outside
the lock (if any), and the ghost histories. -/
structure EnvState where
  queue : List Task
  bgthread : Bool
  running : Option Task
  submitted : List Task
  executed : List Task
deriving DecidableEq, Repr

/-- The state of a freshly constructed _WinEnv: empty queue, no worker
thread yet, nothing running. -/
def initEnv : EnvState :=
  { queue := [], bgthread := false, running := none, submitted := [], executed := [] }

/-- What a single Schedule call does besides updating the state:
whether it constructed the worker thread, and that it signalled the
condition variable bgsignal_. -/
structure ScheduleEffects where
  spawnedWorker : Bool
  signaled : Bool
deriving DecidableEq, Repr

/-- Translation of _WinEnv::Schedule (port_win.cc:614-628) as one atomic
critical section: under mu_, construct the worker thread if bgthread_ is
still null, push_back the bound task; then (after unlocking) notify
bgsignal_. The call returns without running any task. -/
def Schedule (s : EnvState) (t : Task) : EnvState × ScheduleEffects :=
  ({ s with
      queue := s.queue ++ [t]
      bgthread := true
      submitted := s.submitted ++ [t] },
   { spawnedWorker := !s.bgthread, signaled := true })

/-- Number of worker threads constructed over a whole sequence of
Schedule calls performed one after the other from state s. -/
def spawnCount (s : EnvState) (ts : List Task) : Nat :=
  match ts with
  | [] => 0
  | t :: rest =>
    let r := Schedule s t
    (if r.2.spawnedWorker then 1 else 0) + spawnCount r.1 rest

/-- One atomic transition of the scheduling subsystem. schedule is a
Schedule call by any thread tid; dequeue is the BGThread critical
section (port_win.cc:630-646) that pops the head once the queue is
non-empty, possible only for the one existing worker and only when it
is not already running a task; finish is the completion of the call
f() that the worker made outside the lock. -/
inductive EnvStep : EnvState → EnvState → Prop where
  | schedule (tid : Nat) (t : Task) (s : EnvState) :
      EnvStep s (Schedule s t).1
  | dequeue (s : EnvState) (t : Task) (rest : List Task) :
      s.bgthread = true → s.running = none → s.queue = t :: rest →
      EnvStep s { s with queue := rest, running := some t }
  | finish (s : EnvState) (t : Task) :
      s.running = some t →
      EnvStep s { s with running := none, executed := s.executed ++ [t] }

/-- Reachability of a scheduling state from the fresh _WinEnv by any
interleaving of submitter threads and the worker. -/
def EnvReachable (s : EnvState) : Prop :=
  Relation.ReflTransGen EnvStep initEnv s

/-- The central queue invariant: the ghost submission history is exactly
the completed executions, then the task being run, then the queue. -/
def EnvInv (s : EnvState) : Prop :=
  s.executed ++ s.running.toList ++ s.queue = s.submitted

theorem envInv_init : EnvInv initEnv := rfl

theorem envInv_step {s s' : EnvState} (hs : EnvStep s s') (h : EnvInv s) :
    EnvInv s' := by
  cases hs with
  | schedule tid t s =>
      unfold EnvInv at h ⊢
      simp only [Schedule]
      rw [← h]
      simp [List.append_assoc]
  | dequeue s t rest hbg hrun hq =>
      unfold EnvInv at h ⊢
      simp only [hrun, hq, Option.toList] at h
      simp only [Option.toList]
      simpa using h
  | finish s t hrun =>
      unfold EnvInv at h ⊢
      simp only [hrun, Option.toList] at h
      simp only [Option.toList]
      simpa using h

theorem envInv_reachable {s : EnvState} (h : EnvReachable s) : EnvInv s := by
  induction h with
  | refl => exact envInv_init
  | tail _ hstep ih => exact envInv_step hstep ih

/-!
## _WinEnv::StartThread

std::thread semantics per the C++ standard: a std::thread object on
which neither join() nor detach() has been called is joinable, and
destroying a joinable std::thread calls std::terminate. StartThread
(port_win.cc:701-705) constructs the local object t and lets it go out
of scope without join or detach.
-/

/-- A std::thread object: whether it is still joinable. -/
structure StdThread where
  joinable : Bool
deriving DecidableEq, Repr

/-- Constructing std::thread t(lambda): the new object is joinable. -/
def stdThreadCtor : StdThread :=
  { joinable := true }

/-- How a call to StartThread ends for the calling process. -/
inductive CallOutcome where
  | returned : CallOutcome
  | processTerminated : CallOutcome
deriving DecidableEq, Repr

/-- Translation of _WinEnv::StartThread (port_win.cc:701-705): construct
the local std::thread t running function(arg); the function body then
ends, destroying t, which was neither joined nor detached — destroying
a joinable std::thread calls std::terminate. -/
def StartThread {α : Type} (_function : α → Unit) (_arg : α) : CallOutcome :=
  let t := stdThreadCtor
  if t.joinable then CallOutcome.processTerminated else CallOutcome.returned

/-!
## _WinLogger::Logv

The header produced by _snprintf_s is the local wall-clock fields of a
SYSTEMTIME printed with the format %04d/%02d/%02d-%02d:%02d:%02d.%03d
followed by the thread id in %llx and a space. vsnprintf is modelled by
the fully formatted message (the format/argument pair applied), of which
it writes as much as fits while reporting the full length, as C
requires. The two loop iterations of Logv (stack buffer of 500 bytes,
then heap buffer of 30000 bytes) are modelled by logvIter at each size.
-/

/-- Decimal digits of n, most significant first, as printf prints them. -/
def decChars (n : Nat) : List Char :=
  if n = 0 then ['0'] else ((Nat.digits 10 n).map Nat.digitChar).reverse

/-- printf %0wd: decimal digits left-padded with zeros to width w. -/
def padDec (w : Nat) (n : Nat) : List Char :=
  List.replicate (w - (decChars n).length) '0' ++ decChars n

/-- printf %llx: lowercase hexadecimal digits of n. -/
def hexChars (n : Nat) : List Char :=
  if n = 0 then ['0'] else ((Nat.digits 16 n).map Nat.digitChar).reverse

/-- The local-time fields GetLocalTime fills in a SYSTEMTIME. -/
structure SystemTime where
  wYear : Nat
  wMonth : Nat
  wDay : Nat
  wHour : Nat
  wMinute : Nat
  wSecond : Nat
  wMilliseconds : Nat
deriving DecidableEq, Repr

/-- The header that _snprintf_s produces in Logv (port_win.cc:339-348):
"%04d/%02d/%02d-%02d:%02d:%02d.%03d %llx " over the local time fields
and the calling thread id. -/
def formatHeader (st : SystemTime) (tid : Nat) : List Char :=
  padDec 4 st.wYear ++ ['/'] ++ padDec 2 st.wMonth ++ ['/'] ++ padDec 2 st.wDay ++
  ['-'] ++ padDec 2 st.wHour ++ [':'] ++ padDec 2 st.wMinute ++ [':'] ++
  padDec 2 st.wSecond ++ ['.'] ++ padDec 3 st.wMilliseconds ++
  [' '] ++ hexChars tid ++ [' ']

/-- The trailing-newline fixup of Logv (port_win.cc:367-369): append a
newline unless the buffer is empty or already ends with one. -/
def addNewlineIfNeeded (s : List Char) : List Char :=
  if s = [] ∨ s.getLast? ≠ some '\n' then s ++ ['\n'] else s

/-- Outcome of one iteration of the Logv loop at a given buffer size. -/
inductive IterOut where
  | fits : List Char → IterOut
  | overflow : List Char → IterOut
  | headerOverflow : IterOut
deriving DecidableEq, Repr

/-- One iteration of the Logv loop (port_win.cc:320-378) with a buffer
of bufsize bytes: _snprintf_s writes the header (headerOverflow marks
the out-of-model case where even the header is truncated, which the
fixed sizes 500 and 30000 never reach for a real header); vsnprintf
writes as much of the message as fits and advances p by the full
message length; p ≥ limit is the overflow test; finally the newline
fixup runs on the bytes actually in the buffer. -/
def logvIter (bufsize : Nat) (header msg : List Char) : IterOut :=
  if bufsize ≤ header.length then IterOut.headerOverflow
  else if bufsize ≤ header.length + msg.length then
    IterOut.overflow (addNewlineIfNeeded (header ++ msg.take (bufsize - header.length - 1)))
  else
    IterOut.fits (addNewlineIfNeeded (header ++ msg))

/-- Observable stream operations Logv performs on the log FILE*. -/
inductive LogEffect where
  | write : List Char → LogEffect
  | flush : LogEffect
deriving DecidableEq, Repr

/-- The two iterations of the Logv loop over an already formatted
header: first the 500-byte stack buffer; on overflow the loop runs once
more with the 30000-byte heap buffer, this time truncating instead of
retrying; the completed iteration fwrites the line and fflushes. The
empty effect list marks the out-of-model headerOverflow case. -/
def logvEffects (header msg : List Char) : List LogEffect :=
  match logvIter 500 header msg with
  | IterOut.fits l => [LogEffect.write l, LogEffect.flush]
  | IterOut.headerOverflow => []
  | IterOut.overflow _ =>
    match logvIter 30000 header msg with
    | IterOut.fits l => [LogEffect.write l, LogEffect.flush]
    | IterOut.overflow l => [LogEffect.write l, LogEffect.flush]
    | IterOut.headerOverflow => []

/-- Translation of _WinLogger::Logv (port_win.cc:313-379): format the
header from the local time and the calling thread id, then run the
two-buffer loop on it. -/
def Logv (st : SystemTime) (tid : Nat) (msg : List Char) : List LogEffect :=
  logvEffects (formatHeader st tid) msg

/-!
## _WinEnv::CreateDir

The filesystem is an association list from paths (component lists) to
entry kinds. std::experimental::filesystem::create_directories walks the
prefixes of the requested path in order, creating each missing one as a
directory; it reports an error code when a prefix exists as a
non-directory, and returns true exactly when it created at least one
directory and met no error.
-/

/-- Kind of a filesystem entry. -/
inductive FKind where
  | dir : FKind
  | file : FKind
deriving DecidableEq, Repr

/-- A path, as its list of components. -/
abbrev FPath := List String

/-- A filesystem: an association of paths to entry kinds. -/
abbrev FileSystem := List (FPath × FKind)

/-- Looks a path up in the filesystem. -/
def fsLookup : FileSystem → FPath → Option FKind
  | [], _ => none
  | (q, k) :: rest, p => if q = p then some k else fsLookup rest p

/-- Mirrors exp_fs::exists(p). -/
def fsExists (fs : FileSystem) (p : FPath) : Bool :=
  (fsLookup fs p).isSome

/-- Mirrors exp_fs::is_directory(p). -/
def isDirectory (fs : FileSystem) (p : FPath) : Bool :=
  fsLookup fs p == some FKind.dir

/-- The prefix walk of create_directories: pre is the part already
ensured, rest the remaining components, created whether anything was
created so far. Returns the filesystem, the success flag (false exactly
when an error code was set because a prefix exists as a non-directory),
and whether any directory was created. -/
def mkDirsAux (fs : FileSystem) (pre : FPath) (rest : List String) (created : Bool) :
    FileSystem × Bool × Bool :=
  match rest with
  | [] => (fs, true, created)
  | c :: cs =>
    let q := pre ++ [c]
    match fsLookup fs q with
    | some FKind.dir => mkDirsAux fs q cs created
    | some FKind.file => (fs, false, created)
    | none => mkDirsAux ((q, FKind.dir) :: fs) q cs true

/-- Mirrors exp_fs::create_directories(p, ec): the filesystem after the
walk, the success flag (ec unset), and whether anything was created; the
C++ return value is success AND created. An empty path is an error. -/
def createDirectories (fs : FileSystem) (p : FPath) : FileSystem × Bool × Bool :=
  if p = [] then (fs, false, false) else mkDirsAux fs [] p false

/-- Translation of _WinEnv::CreateDir (port_win.cc:508-521): when the
path already exists and is a directory, return OK at once; otherwise
call create_directories and report IOError(name, ec.message()) exactly
when its return value is false. -/
def CreateDir (fs : FileSystem) (name : FPath) : FileSystem × Status :=
  if fsExists fs name && isDirectory fs name then
    (fs, Status.ok)
  else
    let r := createDirectories fs name
    if r.2.1 && r.2.2 then (r.1, Status.ok)
    else (r.1, Status.ioError "createdir" "ec message")

/-!
## Demonstration inputs used by the witness theorems
-/

/-- A sequential file over an empty stream, used for Skip. -/
def skipDemo : WinSequentialFile :=
  { filename := "demofile"
    file := { content := [], pos := 0, eofFlag := false, deviceError := false, errno := 0 } }

/-- A three-byte sequential file, used for Skip. -/
def skipDemo2 : WinSequentialFile :=
  { filename := "demofile2"
    file := { content := [1, 2, 3], pos := 0, eofFlag := false, deviceError := false, errno := 0 } }

/-- A heap holding one live lock at address 0 with handle 5. -/
def lockDemoHeap : LockHeap := [(0, { file := 5 })]

/-!
## Theorems settling the claims
-/

theorem spawnCount_after_spawn (s : EnvState) (ts : List Task) (h : s.bgthread = true) :
    spawnCount s ts = 0 := by
  induction ts generalizing s with
  | nil => rfl
  | cons t rest ih =>
    show (if (Schedule s t).2.spawnedWorker then 1 else 0) + spawnCount (Schedule s t).1 rest = 0
    rw [ih _ rfl]
    simp [Schedule, h]

/-- C2: Schedule appends the task to the tail of the queue under the
queue mutex (the whole critical section is one atomic step of the
model), records it in the submission history, constructs the worker
thread exactly when none exists yet (so exactly once across any
sequence of calls starting without a worker, and never again once one
exists), signals the condition variable, and returns without running or
waiting for any task: the execution history and the running task are
untouched. -/
theorem schedule_contract (s : EnvState) (t : Task) (ts : List Task) :
    ((Schedule s t).1.queue = s.queue ++ [t]) ∧
    ((Schedule s t).1.submitted = s.submitted ++ [t]) ∧
    ((Schedule s t).1.bgthread = true) ∧
    ((Schedule s t).2.spawnedWorker = !s.bgthread) ∧
    ((Schedule s t).2.signaled = true) ∧
    ((Schedule s t).1.executed = s.executed) ∧
    ((Schedule s t).1.running = s.running) ∧
    (s.bgthread = false → spawnCount s (t :: ts) = 1) ∧
    (s.bgthread = true → spawnCount s (t :: ts) = 0) := by
  refine ⟨rfl, rfl, rfl, rfl, rfl, rfl, rfl, ?_, ?_⟩
  · intro h
    show (if (Schedule s t).2.spawnedWorker then 1 else 0) + spawnCount (Schedule s t).1 ts = 1
    rw [spawnCount_after_spawn _ ts rfl]
    simp [Schedule, h]
  · intro h
    exact spawnCount_after_spawn s (t :: ts) h

/-- Witness for schedule_contract at a concrete state: scheduling on a
fresh Env appends to the empty queue, and a run of two submissions
spawns the worker exactly once. -/
theorem schedule_contract_witness :
    (Schedule initEnv 7).1.queue = initEnv.queue ++ [7] ∧
    spawnCount initEnv [7, 8] = 1 :=
  ⟨(schedule_contract initEnv 7 [8]).1,
   (schedule_contract initEnv 7 [8]).2.2.2.2.2.2.2.1 rfl⟩

/-- C4: contrary to the claim, StartThread never returns normally.
It constructs a local std::thread and lets it go out of scope without
join or detach; destroying a joinable std::thread calls std::terminate,
so every call terminates the process. -/
theorem startThread_terminates {α : Type} (function : α → Unit) (arg : α) :
    StartThread function arg = CallOutcome.processTerminated := rfl

/-- C9 counterexample: Skip with the 64-bit count 2^32 succeeds but
leaves the cursor where it was, because the count is converted to a
32-bit long before reaching fseek; the claim that the cursor advances
by exactly n fails at n = 2^32. -/
theorem skip_large_offset_counterexample :
    (WinSequentialFile.Skip skipDemo (2 ^ 32)).1 = Status.ok ∧
    (WinSequentialFile.Skip skipDemo (2 ^ 32)).2.pos = 0 ∧
    skipDemo.file.pos = 0 ∧ 0 ≠ 2 ^ 32 := by decide

/-- C9 (amended): Skip(n) hands fseek the value of n converted to a
32-bit signed long, so the cursor advances by exactly that converted
amount — which equals n only for n < 2^31 — and an I/O error is
returned exactly when the underlying seek fails, that is, when the
converted offset would take the position below zero. -/
theorem skip_advances_by_long_conversion (sf : WinSequentialFile) (n : Nat) :
    ((sf.file.pos : Int) + toLong n < 0 →
      WinSequentialFile.Skip sf n = (IOError sf.filename sf.file.errno, sf.file)) ∧
    (0 ≤ (sf.file.pos : Int) + toLong n →
      (WinSequentialFile.Skip sf n).1 = Status.ok ∧
      ((WinSequentialFile.Skip sf n).2.pos : Int) = (sf.file.pos : Int) + toLong n) ∧
    (n < 2 ^ 31 →
      (WinSequentialFile.Skip sf n).1 = Status.ok ∧
      (WinSequentialFile.Skip sf n).2.pos = sf.file.pos + n) := by
  have he : WinSequentialFile.Skip sf n =
      if (sf.file.pos : Int) + toLong n < 0 then
        (IOError sf.filename sf.file.errno, sf.file)
      else
        (Status.ok,
         { sf.file with pos := ((sf.file.pos : Int) + toLong n).toNat, eofFlag := false }) := by
    unfold WinSequentialFile.Skip fseekCur
    by_cases h : (sf.file.pos : Int) + toLong n < 0
    · rw [if_pos h, if_pos h]
    · rw [if_neg h, if_neg h]
  refine ⟨?_, ?_, ?_⟩
  · intro h
    rw [he, if_pos h]
  · intro h
    rw [he, if_neg (by omega)]
    refine ⟨rfl, ?_⟩
    show ((((sf.file.pos : Int) + toLong n).toNat : Nat) : Int) = (sf.file.pos : Int) + toLong n
    omega
  · intro h
    have ht : toLong n = (n : Int) := by
      unfold toLong
      rw [Nat.mod_eq_of_lt (by omega)]
      rw [if_pos h]
    rw [he, ht, if_neg (by omega)]
    refine ⟨rfl, ?_⟩
    show (((sf.file.pos : Int) + (n : Int)).toNat : Nat) = sf.file.pos + n
    omega

/-- Witness for skip_advances_by_long_conversion: skipping 3 bytes of a
fresh three-byte file moves the cursor to 3 and succeeds. -/
theorem skip_amended_witness :
    (WinSequentialFile.Skip skipDemo2 3).1 = Status.ok ∧
    (WinSequentialFile.Skip skipDemo2 3).2.pos = skipDemo2.file.pos + 3 :=
  (skip_advances_by_long_conversion skipDemo2 3).2.2 (by decide)

/-- C8 counterexample: the first unlock of the live lock at address 0
releases it (closing handle 5) and returns OK, but a second unlock of
the same, already released lock is a delete of a dead pointer —
undefined behavior (none), not the no-op the claim requires. -/
theorem unlockFile_double_unlock_counterexample :
    UnlockFile lockDemoHeap (some 0) =
      some ([], [OSEffect.closeHandle 5], Status.ok) ∧
    UnlockFile [] (some 0) = none := by decide

/-- C8 (amended): UnlockFile with a null lock is a successful no-op;
with a live lock it deletes the lock, whose destructor closes the OS
handle when it is valid, and returns OK — every defined call returns
success — but calling it again on the same already-released lock is a
double free, hence undefined behavior rather than a safe no-op. -/
theorem unlockFile_amended (heap : LockHeap) (ptr : Nat) :
    (UnlockFile heap none = some (heap, [], Status.ok)) ∧
    (∀ l, lockAt heap ptr = some l →
      UnlockFile heap (some ptr) =
        some (heap.filter (fun e => e.1 != ptr), winFileLockDtor l, Status.ok)) ∧
    (lockAt heap ptr = none → UnlockFile heap (some ptr) = none) ∧
    (∀ r, UnlockFile heap (some ptr) = some r → r.2.2 = Status.ok) := by
  refine ⟨rfl, ?_, ?_, ?_⟩
  · intro l hl
    simp [UnlockFile, deleteLock, hl]
  · intro hl
    simp [UnlockFile, deleteLock, hl]
  · intro r hr
    cases hlk : lockAt heap ptr with
    | none => simp [UnlockFile, deleteLock, hlk] at hr
    | some l =>
      simp [UnlockFile, deleteLock, hlk] at hr
      rw [← hr]

/-- Witness for unlockFile_amended: releasing the live lock at address
0 closes handle 5 and returns OK. -/
theorem unlockFile_amended_witness :
    UnlockFile lockDemoHeap (some 0) =
      some (lockDemoHeap.filter (fun e => e.1 != 0),
            winFileLockDtor { file := 5 }, Status.ok) :=
  (unlockFile_amended lockDemoHeap 0).2.1 { file := 5 } (by decide)

/-- The state streamFlush produces on a non-raising stream. -/
def flushedState (s : OFStream) : OFStream :=
  { s with
      osBuf := s.osBuf ++ s.userBuf
      userBuf := []
      flushCalls := s.flushCalls + 1 }

theorem flush_eq (s : OFStream) :
    WinWritableFile.Flush s =
      if s.flushThrows then Except.error Exn.streamFailure
      else Except.ok (flushedState s, Status.ok) := by
  unfold WinWritableFile.Flush streamFlush flushedState
  cases hf : s.flushThrows <;> simp

theorem sync_eq (s : OFStream) :
    WinWritableFile.Sync s =
      if s.flushThrows then (s, Status.ioError "path sync" "stream failure")
      else (flushedState s, Status.ok) := by
  unfold WinWritableFile.Sync
  rw [flush_eq]
  cases hf : s.flushThrows <;> simp

theorem close_unfold (s : OFStream) :
    WinWritableFile.Close s =
      if s.isOpen then
        match streamClose (WinWritableFile.Sync s).1 with
        | Except.ok s2 => (s2, Status.ok)
        | Except.error _ =>
          ((WinWritableFile.Sync s).1, Status.ioError "path close" "stream failure")
      else (s, Status.ok) := rfl

/-- C5: on an open file whose stream raises nothing, the first Close
flushes (sync) and then closes the stream, each exactly once, and
returns OK; any call that returned OK leaves a state on which Close is
an exact no-op returning OK again (so nothing is flushed or closed a
second time — all ghost counters are unchanged); Close on an already
closed file is a successful no-op; and a stream exception during close
is caught and converted into an I/O error status (Close is a total
function into Status — nothing propagates). -/
theorem close_idempotent_sync_then_close (s : OFStream) :
    (s.isOpen = true → s.flushThrows = false → s.closeThrows = false →
      (WinWritableFile.Close s).2 = Status.ok ∧
      (WinWritableFile.Close s).1.isOpen = false ∧
      (WinWritableFile.Close s).1.userBuf = [] ∧
      (WinWritableFile.Close s).1.osBuf = s.osBuf ++ s.userBuf ∧
      (WinWritableFile.Close s).1.flushCalls = s.flushCalls + 1 ∧
      (WinWritableFile.Close s).1.closeCalls = s.closeCalls + 1) ∧
    ((WinWritableFile.Close s).2 = Status.ok →
      WinWritableFile.Close (WinWritableFile.Close s).1 =
        ((WinWritableFile.Close s).1, Status.ok)) ∧
    (s.isOpen = false → WinWritableFile.Close s = (s, Status.ok)) ∧
    (s.isOpen = true → s.closeThrows = true →
      (WinWritableFile.Close s).2 = Status.ioError "path close" "stream failure") := by
  have hnoop : ∀ u : OFStream, u.isOpen = false →
      WinWritableFile.Close u = (u, Status.ok) := by
    intro u hu
    rw [close_unfold, if_neg (by simp [hu])]
  refine ⟨?_, ?_, ?_, ?_⟩
  · intro h1 h2 h3
    simp [close_unfold, sync_eq, streamClose, flushedState, h1, h2, h3]
  · intro h
    cases ho : s.isOpen with
    | false =>
      rw [hnoop s ho]
      exact hnoop s ho
    | true =>
      cases hc : s.closeThrows with
      | true =>
        exfalso
        cases hfl : s.flushThrows <;>
          simp [close_unfold, sync_eq, streamClose, flushedState, ho, hc, hfl] at h
      | false =>
        apply hnoop
        cases hfl : s.flushThrows <;>
          simp [close_unfold, sync_eq, streamClose, flushedState, ho, hc, hfl]
  · intro h
    exact hnoop s h
  · intro h1 h2
    cases hfl : s.flushThrows <;>
      simp [close_unfold, sync_eq, streamClose, flushedState, h1, h2, hfl]

/-- A writable-file stream with two buffered bytes, raising nothing. -/
def wfDemo : OFStream :=
  { isOpen := true, userBuf := [104, 105], osBuf := [], stable := [],
    flushThrows := false, closeThrows := false, flushCalls := 0, closeCalls := 0 }

/-- The same stream but whose flush raises. -/
def wfDemoF : OFStream :=
  { wfDemo with flushThrows := true }

/-- Witness for close_idempotent_sync_then_close: closing the demo
stream succeeds and leaves it closed, and a second Close is an exact
no-op returning OK. -/
theorem close_idempotent_witness :
    (WinWritableFile.Close wfDemo).2 = Status.ok ∧
    (WinWritableFile.Close wfDemo).1.isOpen = false ∧
    WinWritableFile.Close (WinWritableFile.Close wfDemo).1 =
      ((WinWritableFile.Close wfDemo).1, Status.ok) :=
  ⟨((close_idempotent_sync_then_close wfDemo).1 rfl rfl rfl).1,
   ((close_idempotent_sync_then_close wfDemo).1 rfl rfl rfl).2.1,
   (close_idempotent_sync_then_close wfDemo).2.1
     ((close_idempotent_sync_then_close wfDemo).1 rfl rfl rfl).1⟩

/-- C7: Sync is observationally exactly Flush with the exception
translated: it succeeds precisely when Flush returns, in which case it
produces the state from Flush and OK; when Flush raises it returns the
unchanged state with an I/O error status; and it issues no persistence
instruction to the OS — the stable-storage content is untouched (as are
the open flag and the close counter). -/
theorem sync_is_flush_only (s : OFStream) :
    ((WinWritableFile.Sync s).2 = Status.ok ↔
      ∃ r, WinWritableFile.Flush s = Except.ok r) ∧
    (∀ r, WinWritableFile.Flush s = Except.ok r →
      WinWritableFile.Sync s = (r.1, Status.ok)) ∧
    (∀ e, WinWritableFile.Flush s = Except.error e →
      WinWritableFile.Sync s = (s, Status.ioError "path sync" "stream failure")) ∧
    ((WinWritableFile.Sync s).1.stable = s.stable) ∧
    ((WinWritableFile.Sync s).1.closeCalls = s.closeCalls) ∧
    ((WinWritableFile.Sync s).1.isOpen = s.isOpen) := by
  cases hf : s.flushThrows <;>
    simp [sync_eq, flush_eq, flushedState, hf]

/-- Witness for sync_is_flush_only: on the raising demo stream Sync
reports an I/O error with the state unchanged, and on the healthy demo
stream it leaves stable storage untouched. -/
theorem sync_witness :
    WinWritableFile.Sync wfDemoF = (wfDemoF, Status.ioError "path sync" "stream failure") ∧
    (WinWritableFile.Sync wfDemo).1.stable = wfDemo.stable :=
  ⟨(sync_is_flush_only wfDemoF).2.2.1 Exn.streamFailure rfl,
   (sync_is_flush_only wfDemo).2.2.2.1⟩

theorem take_min_length {α : Type} (l : List α) (n : Nat) :
    l.take (min n l.length) = l.take n := by
  rcases le_total n l.length with h | h
  · rw [Nat.min_eq_left h]
  · rw [Nat.min_eq_right h, List.take_length, List.take_of_length_le h]

/-- The stream state after a healthy read of n bytes. -/
def afterRead (n : Nat) (f : CFile) : CFile :=
  { f with
      pos := f.pos + min n (f.content.length - f.pos)
      eofFlag := decide (min n (f.content.length - f.pos) < n) }

theorem read_eq_healthy (sf : WinSequentialFile) (n : Nat)
    (hd : sf.file.deviceError = false) (heof : sf.file.eofFlag = false) :
    WinSequentialFile.Read sf n =
      { status := Status.ok
        result := (sf.file.content.drop sf.file.pos).take n
        file := afterRead n sf.file } := by
  have havail : (sf.file.content.drop sf.file.pos).length =
      sf.file.content.length - sf.file.pos := List.length_drop _ _
  have hslice : (sf.file.content.drop sf.file.pos).take
      (min n (sf.file.content.length - sf.file.pos)) =
      (sf.file.content.drop sf.file.pos).take n := by
    rw [← havail, take_min_length]
  unfold WinSequentialFile.Read freadNolock
  rw [hd, heof]
  by_cases hlt : (min n (sf.file.content.length - sf.file.pos)) < n
  · simp only [Bool.false_eq_true, if_false, hslice, List.length_take, havail]
    rw [if_pos (by omega), if_pos (by simp [hlt])]
    simp [afterRead, hlt, hd]
  · simp only [Bool.false_eq_true, if_false, hslice, List.length_take, havail]
    rw [if_neg (by omega)]
    simp [afterRead, hlt, hd]

theorem read_eq_deviceError (sf : WinSequentialFile) (n : Nat)
    (hd : sf.file.deviceError = true) (heof : sf.file.eofFlag = false) (hn : 0 < n) :
    WinSequentialFile.Read sf n =
      { status := IOError sf.filename sf.file.errno
        result := []
        file := sf.file } := by
  unfold WinSequentialFile.Read freadNolock
  rw [hd]
  simp [heof, hn]

theorem read_at_eof (sf : WinSequentialFile) (n : Nat)
    (hd : sf.file.deviceError = false) (hpos : sf.file.content.length ≤ sf.file.pos)
    (hn : 0 < n) (he : sf.file.eofFlag = true) :
    (WinSequentialFile.Read sf n).status = Status.ok ∧
    (WinSequentialFile.Read sf n).result = [] := by
  have havail : sf.file.content.length - sf.file.pos = 0 := by omega
  unfold WinSequentialFile.Read freadNolock
  rw [hd]
  simp [havail, hn, he]

/-- C3: with the end-of-file indicator clear, Read(n) returns OK exactly
when the device does not fail (or nothing was requested); on a healthy
device the status is always OK, the result is the next
min(n, remaining) bytes, and it is short exactly when fewer than n
bytes remain (end-of-file); and on a file of size S < n read from the
start it returns the whole content without error while the following
Read returns an empty result without error. A failing device with bytes
still requested is the only way to get an I/O error. -/
theorem sequential_read_contract (sf : WinSequentialFile) (n : Nat)
    (heof : sf.file.eofFlag = false) :
    ((WinSequentialFile.Read sf n).status = Status.ok ↔
      (sf.file.deviceError = false ∨ n = 0)) ∧
    (sf.file.deviceError = false →
      (WinSequentialFile.Read sf n).status = Status.ok ∧
      (WinSequentialFile.Read sf n).result = (sf.file.content.drop sf.file.pos).take n ∧
      ((WinSequentialFile.Read sf n).result.length < n ↔
        sf.file.content.length - sf.file.pos < n)) ∧
    (sf.file.deviceError = false → sf.file.pos = 0 → sf.file.content.length < n →
      (WinSequentialFile.Read sf n).status = Status.ok ∧
      (WinSequentialFile.Read sf n).result = sf.file.content ∧
      (WinSequentialFile.Read
        { filename := sf.filename, file := (WinSequentialFile.Read sf n).file } n).status =
        Status.ok ∧
      (WinSequentialFile.Read
        { filename := sf.filename, file := (WinSequentialFile.Read sf n).file } n).result =
        []) := by
  have hB : sf.file.deviceError = false →
      (WinSequentialFile.Read sf n).status = Status.ok ∧
      (WinSequentialFile.Read sf n).result = (sf.file.content.drop sf.file.pos).take n ∧
      ((WinSequentialFile.Read sf n).result.length < n ↔
        sf.file.content.length - sf.file.pos < n) := by
    intro hd
    rw [read_eq_healthy sf n hd heof]
    refine ⟨rfl, rfl, ?_⟩
    have hlen : ((sf.file.content.drop sf.file.pos).take n).length =
        min n (sf.file.content.length - sf.file.pos) := by
      rw [List.length_take, List.length_drop]
    rw [hlen]
    omega
  refine ⟨?_, hB, ?_⟩
  · cases hd : sf.file.deviceError with
    | false =>
      simp [(hB hd).1]
    | true =>
      cases hn : n with
      | zero =>
        have hok : (WinSequentialFile.Read sf 0).status = Status.ok := by
          unfold WinSequentialFile.Read freadNolock
          rw [hd]
          simp
        simp [hok]
      | succ m =>
        rw [read_eq_deviceError sf (m + 1) hd heof (by omega)]
        simp [IOError]
  · intro hd hpos hlen
    have h1 := read_eq_healthy sf n hd heof
    have hmin : min n (sf.file.content.length - sf.file.pos) = sf.file.content.length := by
      rw [hpos]
      omega
    have hres : (WinSequentialFile.Read sf n).result = sf.file.content := by
      rw [h1, hpos, List.drop_zero, List.take_of_length_le (by omega)]
    have hfile : (WinSequentialFile.Read sf n).file = afterRead n sf.file := by
      rw [h1]
    have h2 := read_at_eof
      { filename := sf.filename, file := afterRead n sf.file } n
      (by simp [afterRead, hd])
      (by simp [afterRead, hmin])
      (by omega)
      (by simp [afterRead, hmin]; omega)
    refine ⟨by rw [h1], hres, ?_, ?_⟩
    · rw [hfile]
      exact h2.1
    · rw [hfile]
      exact h2.2

/-- A three-byte sequential file over a healthy stream. -/
def seqDemo : WinSequentialFile :=
  { filename := "seq"
    file := { content := [10, 20, 30], pos := 0, eofFlag := false, deviceError := false, errno := 0 } }

/-- Witness for sequential_read_contract: reading 5 bytes of the
three-byte demo file yields the whole content with status OK, and the
following read of 5 bytes yields the empty slice. -/
theorem sequential_read_witness :
    (WinSequentialFile.Read seqDemo 5).status = Status.ok ∧
    (WinSequentialFile.Read seqDemo 5).result = seqDemo.file.content ∧
    (WinSequentialFile.Read
      { filename := seqDemo.filename, file := (WinSequentialFile.Read seqDemo 5).file } 5).result =
      [] := by
  have h := (sequential_read_contract seqDemo 5 rfl).2.2 rfl rfl (by decide)
  exact ⟨h.1, h.2.1, h.2.2.2⟩

/-- C1: along every interleaving of Schedule calls (from any number of
threads) with the worker loop, the completed executions followed by the
task being run and the queue are exactly the submission history, in
order — no task is duplicated or dropped and tasks appended before the
worker dequeues run in exactly their append (FIFO) order; in a
quiescent state (empty queue, nothing running) the single worker has
executed exactly the submitted tasks, in submission order; and while a
task runs no step starts another — at most one task executes at a
time. -/
theorem bgthread_fifo_exactly_once :
    (∀ s : EnvState, EnvReachable s →
      s.executed ++ s.running.toList ++ s.queue = s.submitted) ∧
    (∀ s : EnvState, EnvReachable s → s.queue = [] → s.running = none →
      s.executed = s.submitted) ∧
    (∀ s s' : EnvState, EnvStep s s' → s.running ≠ none →
      s'.running = s.running ∨
      (s'.running = none ∧ s'.executed = s.executed ++ s.running.toList)) := by
  have hinv : ∀ s : EnvState, EnvReachable s →
      s.executed ++ s.running.toList ++ s.queue = s.submitted :=
    fun s h => envInv_reachable h
  refine ⟨hinv, ?_, ?_⟩
  · intro s h hq hr
    have hs := hinv s h
    rw [hq, hr] at hs
    simpa using hs
  · intro s s' hstep hr
    cases hstep with
    | schedule tid t s =>
      left
      rfl
    | dequeue s t rest hbg hrun hq =>
      exact absurd hrun hr
    | finish s t hrun =>
      right
      refine ⟨rfl, ?_⟩
      rw [hrun]
      rfl

/-- Scheduling demo: state after Schedule(7) on a fresh Env. -/
def envDemo1 : EnvState :=
  { queue := [7], bgthread := true, running := none, submitted := [7], executed := [] }

/-- Scheduling demo: state after a further Schedule(8). -/
def envDemo2 : EnvState :=
  { queue := [7, 8], bgthread := true, running := none, submitted := [7, 8], executed := [] }

/-- Scheduling demo: the worker has dequeued task 7 and is running it. -/
def envDemo3 : EnvState :=
  { queue := [8], bgthread := true, running := some 7, submitted := [7, 8], executed := [] }

/-- Scheduling demo: task 7 has completed. -/
def envDemo4 : EnvState :=
  { queue := [8], bgthread := true, running := none, submitted := [7, 8], executed := [7] }

/-- Scheduling demo: the worker has dequeued task 8 and is running it. -/
def envDemo5 : EnvState :=
  { queue := [], bgthread := true, running := some 8, submitted := [7, 8], executed := [7] }

/-- Scheduling demo: both tasks have completed. -/
def envDemoFinal : EnvState :=
  { queue := [], bgthread := true, running := none, submitted := [7, 8], executed := [7, 8] }

/-- Witness for bgthread_fifo_exactly_once: after submitting 7 then 8
and letting the worker drain the queue, the worker has executed exactly
the two submitted tasks, in submission order. -/
theorem bgthread_fifo_witness :
    envDemoFinal.executed ++ envDemoFinal.running.toList ++ envDemoFinal.queue =
      envDemoFinal.submitted ∧
    envDemoFinal.executed = envDemoFinal.submitted := by
  have h1 : EnvStep initEnv envDemo1 := EnvStep.schedule 0 7 initEnv
  have h2 : EnvStep envDemo1 envDemo2 := EnvStep.schedule 1 8 envDemo1
  have h3 : EnvStep envDemo2 envDemo3 := EnvStep.dequeue envDemo2 7 [8] rfl rfl rfl
  have h4 : EnvStep envDemo3 envDemo4 := EnvStep.finish envDemo3 7 rfl
  have h5 : EnvStep envDemo4 envDemo5 := EnvStep.dequeue envDemo4 8 [] rfl rfl rfl
  have h6 : EnvStep envDemo5 envDemoFinal := EnvStep.finish envDemo5 8 rfl
  have hreach : EnvReachable envDemoFinal :=
    Relation.ReflTransGen.head h1 (Relation.ReflTransGen.head h2
      (Relation.ReflTransGen.head h3 (Relation.ReflTransGen.head h4
        (Relation.ReflTransGen.head h5 (Relation.ReflTransGen.head h6
          Relation.ReflTransGen.refl)))))
  exact ⟨bgthread_fifo_exactly_once.1 envDemoFinal hreach,
         bgthread_fifo_exactly_once.2.1 envDemoFinal hreach rfl rfl⟩

theorem fsLookup_insert (fs : FileSystem) (q p : FPath) (k : FKind) :
    fsLookup ((q, k) :: fs) p = if q = p then some k else fsLookup fs p := rfl

theorem mkDirsAux_cons_dir (fs : FileSystem) (pre : FPath) (c : String) (cs : List String)
    (created : Bool) (hq : fsLookup fs (pre ++ [c]) = some FKind.dir) :
    mkDirsAux fs pre (c :: cs) created = mkDirsAux fs (pre ++ [c]) cs created := by
  conv_lhs => rw [mkDirsAux.eq_def]
  simp only [hq]

theorem mkDirsAux_cons_file (fs : FileSystem) (pre : FPath) (c : String) (cs : List String)
    (created : Bool) (hq : fsLookup fs (pre ++ [c]) = some FKind.file) :
    mkDirsAux fs pre (c :: cs) created = (fs, false, created) := by
  conv_lhs => rw [mkDirsAux.eq_def]
  simp only [hq]

theorem mkDirsAux_cons_none (fs : FileSystem) (pre : FPath) (c : String) (cs : List String)
    (created : Bool) (hq : fsLookup fs (pre ++ [c]) = none) :
    mkDirsAux fs pre (c :: cs) created =
      mkDirsAux ((pre ++ [c], FKind.dir) :: fs) (pre ++ [c]) cs true := by
  conv_lhs => rw [mkDirsAux.eq_def]
  simp only [hq]

theorem mkDirsAux_preserves (p : FPath) (k : FKind) (rest : List String) (fs : FileSystem)
    (pre : FPath) (created : Bool) (h : fsLookup fs p = some k) :
    fsLookup (mkDirsAux fs pre rest created).1 p = some k := by
  induction rest generalizing fs pre created with
  | nil => exact h
  | cons c cs ih =>
    cases hq : fsLookup fs (pre ++ [c]) with
    | none =>
      rw [mkDirsAux_cons_none fs pre c cs created hq]
      apply ih
      rw [fsLookup_insert]
      by_cases he : pre ++ [c] = p
      · rw [he] at hq
        rw [hq] at h
        cases h
      · rw [if_neg he]
        exact h
    | some kk =>
      cases kk with
      | dir =>
        rw [mkDirsAux_cons_dir fs pre c cs created hq]
        exact ih fs (pre ++ [c]) created h
      | file =>
        rw [mkDirsAux_cons_file fs pre c cs created hq]
        exact h

theorem mkDirsAux_dirs (rest : List String) (fs : FileSystem) (pre : FPath) (created : Bool)
    (hsucc : (mkDirsAux fs pre rest created).2.1 = true) :
    ∀ j : Nat, 0 < j → j ≤ rest.length →
      fsLookup (mkDirsAux fs pre rest created).1 (pre ++ rest.take j) = some FKind.dir := by
  induction rest generalizing fs pre created with
  | nil =>
    intro j hj hle
    simp at hle
    omega
  | cons c cs ih =>
    intro j hj hle
    cases hq : fsLookup fs (pre ++ [c]) with
    | none =>
      rw [mkDirsAux_cons_none fs pre c cs created hq] at hsucc ⊢
      have hqdir : fsLookup ((pre ++ [c], FKind.dir) :: fs) (pre ++ [c]) = some FKind.dir := by
        rw [fsLookup_insert, if_pos rfl]
      have hkeep := mkDirsAux_preserves (pre ++ [c]) FKind.dir cs
        ((pre ++ [c], FKind.dir) :: fs) (pre ++ [c]) true hqdir
      cases j with
      | zero => omega
      | succ i =>
        have hsplit : pre ++ (c :: List.take i cs) = (pre ++ [c]) ++ List.take i cs := by simp
        rw [List.take_succ_cons, hsplit]
        simp [List.length_cons] at hle
        cases Nat.eq_zero_or_pos i with
        | inl hz =>
          subst hz
          simpa using hkeep
        | inr hpos =>
          exact ih _ _ _ hsucc i hpos (by omega)
    | some kk =>
      cases kk with
      | file =>
        rw [mkDirsAux_cons_file fs pre c cs created hq] at hsucc
        simp at hsucc
      | dir =>
        rw [mkDirsAux_cons_dir fs pre c cs created hq] at hsucc ⊢
        have hkeep := mkDirsAux_preserves (pre ++ [c]) FKind.dir cs fs (pre ++ [c]) created hq
        cases j with
        | zero => omega
        | succ i =>
          have hsplit : pre ++ (c :: List.take i cs) = (pre ++ [c]) ++ List.take i cs := by simp
          rw [List.take_succ_cons, hsplit]
          simp [List.length_cons] at hle
          cases Nat.eq_zero_or_pos i with
          | inl hz =>
            subst hz
            simpa using hkeep
          | inr hpos =>
            exact ih _ _ _ hsucc i hpos (by omega)

theorem createDirectories_nil (fs : FileSystem) : createDirectories fs [] = (fs, false, false) := by
  unfold createDirectories
  rw [if_pos rfl]

theorem createDirectories_dirs (fs : FileSystem) (p : FPath)
    (hsucc : (createDirectories fs p).2.1 = true) :
    ∀ j : Nat, 0 < j → j ≤ p.length →
      fsLookup (createDirectories fs p).1 (p.take j) = some FKind.dir := by
  intro j hj hle
  by_cases hp : p = []
  · subst hp
    simp at hle
    omega
  · unfold createDirectories at hsucc ⊢
    rw [if_neg hp] at hsucc ⊢
    have := mkDirsAux_dirs p fs [] false hsucc j hj hle
    simpa using this

theorem isDirectory_of_lookup {fs : FileSystem} {p : FPath}
    (h : fsLookup fs p = some FKind.dir) : isDirectory fs p = true := by
  unfold isDirectory
  rw [h]
  rfl

theorem createDir_guard_true (fs : FileSystem) (name : FPath)
    (h : (fsExists fs name && isDirectory fs name) = true) :
    CreateDir fs name = (fs, Status.ok) := by
  unfold CreateDir
  rw [if_pos h]

theorem createDir_guard_false (fs : FileSystem) (name : FPath)
    (h : (fsExists fs name && isDirectory fs name) = false) :
    CreateDir fs name =
      if ((createDirectories fs name).2.1 && (createDirectories fs name).2.2) = true
      then ((createDirectories fs name).1, Status.ok)
      else ((createDirectories fs name).1, Status.ioError "createdir" "ec message") := by
  unfold CreateDir
  rw [if_neg (by simp [h])]

/-- C10: CreateDir is idempotent at the public interface. When the path
already exists as a directory it returns OK with the filesystem
untouched; any successful call leaves a state on which CreateDir
returns OK again without change; and a success on a path that was not
already a directory has created the directory together with every
missing ancestor (every nonempty path-prefix is then a directory); any
other outcome is an I/O error status (the only other constructor of
the Status type). -/
theorem createDir_idempotent (fs : FileSystem) (name : FPath) :
    (fsExists fs name = true → isDirectory fs name = true →
      CreateDir fs name = (fs, Status.ok)) ∧
    (∀ fs', CreateDir fs name = (fs', Status.ok) →
      CreateDir fs' name = (fs', Status.ok)) ∧
    (∀ fs', isDirectory fs name = false → CreateDir fs name = (fs', Status.ok) →
      ∀ j : Nat, 0 < j → j ≤ name.length → isDirectory fs' (name.take j) = true) := by
  have hdirs : ∀ fs', isDirectory fs name = false → CreateDir fs name = (fs', Status.ok) →
      ∀ j : Nat, 0 < j → j ≤ name.length → isDirectory fs' (name.take j) = true := by
    intro fs' hnd h j hj hle
    have hg : (fsExists fs name && isDirectory fs name) = false := by
      rw [hnd, Bool.and_false]
    rw [createDir_guard_false fs name hg] at h
    by_cases hr : ((createDirectories fs name).2.1 && (createDirectories fs name).2.2) = true
    · rw [if_pos hr] at h
      have hsucc : (createDirectories fs name).2.1 = true := by
        rcases Bool.and_eq_true_iff.mp hr with ⟨h1, _⟩
        exact h1
      have hfs : (createDirectories fs name).1 = fs' := (Prod.mk.injEq _ _ _ _).mp h |>.1
      rw [← hfs]
      exact isDirectory_of_lookup (createDirectories_dirs fs name hsucc j hj hle)
    · rw [if_neg hr] at h
      have := (Prod.mk.injEq _ _ _ _).mp h |>.2
      cases this
  refine ⟨?_, ?_, hdirs⟩
  · intro h1 h2
    exact createDir_guard_true fs name (by rw [h1, h2]; rfl)
  · intro fs' h
    cases hg : (fsExists fs name && isDirectory fs name) with
    | true =>
      have h0 := createDir_guard_true fs name hg
      rw [h0] at h
      have hfs : fs = fs' := ((Prod.mk.injEq _ _ _ _).mp h).1
      rw [← hfs]
      exact h0
    | false =>
      have hnd : isDirectory fs name = false := by
        cases hv : isDirectory fs name with
        | false => rfl
        | true =>
          rw [hv, Bool.and_true] at hg
          unfold isDirectory at hv
          unfold fsExists at hg
          cases hl : fsLookup fs name with
          | none => rw [hl] at hv; cases hv
          | some k => rw [hl] at hg; cases hg
      have hname : name ≠ [] := by
        intro he
        subst he
        rw [createDir_guard_false fs [] (by rw [hnd, Bool.and_false]),
            createDirectories_nil] at h
        simp at h
      have hdir : isDirectory fs' name = true := by
        have := hdirs fs' hnd h name.length (by
          cases hnn : name with
          | nil => exact absurd hnn hname
          | cons a as => simp) (le_refl _)
        rwa [List.take_length] at this
      have hex : fsExists fs' name = true := by
        unfold isDirectory at hdir
        unfold fsExists
        cases hl : fsLookup fs' name with
        | none => rw [hl] at hdir; cases hdir
        | some k => rfl
      exact createDir_guard_true fs' name (by rw [hex, hdir]; rfl)

/-- Witness for createDir_idempotent: creating a/b in the empty
filesystem succeeds; repeating the call is a successful no-op, and the
missing parent a was created as a directory. -/
theorem createDir_witness :
    CreateDir (CreateDir [] ["a", "b"]).1 ["a", "b"] =
      ((CreateDir [] ["a", "b"]).1, Status.ok) ∧
    isDirectory (CreateDir [] ["a", "b"]).1 ["a"] = true :=
  ⟨(createDir_idempotent [] ["a", "b"]).2.1 ((CreateDir [] ["a", "b"]).1) (by decide),
   (createDir_idempotent [] ["a", "b"]).2.2 ((CreateDir [] ["a", "b"]).1)
     (by decide) (by decide) 1 (by decide) (by decide)⟩

theorem decChars_length_le (n k : Nat) (hk : 0 < k) (h : n < 10 ^ k) :
    (decChars n).length ≤ k := by
  unfold decChars
  by_cases hn : n = 0
  · rw [if_pos hn]
    simpa using hk
  · rw [if_neg hn]
    rw [List.length_reverse, List.length_map]
    rw [Nat.digits_len 10 n (by norm_num) hn]
    have h2 : Nat.log 10 n < k := (Nat.lt_pow_iff_log_lt (by norm_num) hn).mp h
    omega

theorem hexChars_length_le (n k : Nat) (hk : 0 < k) (h : n < 16 ^ k) :
    (hexChars n).length ≤ k := by
  unfold hexChars
  by_cases hn : n = 0
  · rw [if_pos hn]
    simpa using hk
  · rw [if_neg hn]
    rw [List.length_reverse, List.length_map]
    rw [Nat.digits_len 16 n (by norm_num) hn]
    have h2 : Nat.log 16 n < k := (Nat.lt_pow_iff_log_lt (by norm_num) hn).mp h
    omega

theorem padDec_length_le (w k n : Nat) (hw : w ≤ k) (hd : (decChars n).length ≤ k) :
    (padDec w n).length ≤ k := by
  unfold padDec
  rw [List.length_append, List.length_replicate]
  omega

theorem formatHeader_length_le (st : SystemTime) (tid : Nat)
    (hy : st.wYear < 65536) (hmo : st.wMonth < 65536) (hda : st.wDay < 65536)
    (hh : st.wHour < 65536) (hmi : st.wMinute < 65536) (hs : st.wSecond < 65536)
    (hms : st.wMilliseconds < 65536) (htid : tid < 2 ^ 64) :
    (formatHeader st tid).length ≤ 59 := by
  have hb : ∀ m : Nat, m < 65536 → (decChars m).length ≤ 5 := fun m hm =>
    decChars_length_le m 5 (by norm_num) (Nat.lt_trans hm (by norm_num))
  have e1 : (padDec 4 st.wYear).length ≤ 5 := padDec_length_le 4 5 _ (by norm_num) (hb _ hy)
  have e2 : (padDec 2 st.wMonth).length ≤ 5 := padDec_length_le 2 5 _ (by norm_num) (hb _ hmo)
  have e3 : (padDec 2 st.wDay).length ≤ 5 := padDec_length_le 2 5 _ (by norm_num) (hb _ hda)
  have e4 : (padDec 2 st.wHour).length ≤ 5 := padDec_length_le 2 5 _ (by norm_num) (hb _ hh)
  have e5 : (padDec 2 st.wMinute).length ≤ 5 := padDec_length_le 2 5 _ (by norm_num) (hb _ hmi)
  have e6 : (padDec 2 st.wSecond).length ≤ 5 := padDec_length_le 2 5 _ (by norm_num) (hb _ hs)
  have e7 : (padDec 3 st.wMilliseconds).length ≤ 5 :=
    padDec_length_le 3 5 _ (by norm_num) (hb _ hms)
  have e8 : (hexChars tid).length ≤ 16 :=
    hexChars_length_le tid 16 (by norm_num) (Nat.lt_of_lt_of_le htid (by norm_num))
  unfold formatHeader
  simp only [List.length_append, List.length_cons, List.length_nil]
  omega

theorem logvIter_fits (bufsize : Nat) (header msg : List Char)
    (h : header.length + msg.length < bufsize) :
    logvIter bufsize header msg = IterOut.fits (addNewlineIfNeeded (header ++ msg)) := by
  unfold logvIter
  rw [if_neg (by omega), if_neg (by omega)]

theorem logvIter_overflow (bufsize : Nat) (header msg : List Char)
    (h1 : header.length < bufsize) (h2 : bufsize ≤ header.length + msg.length) :
    logvIter bufsize header msg =
      IterOut.overflow
        (addNewlineIfNeeded (header ++ msg.take (bufsize - header.length - 1))) := by
  unfold logvIter
  rw [if_neg (by omega), if_pos h2]

theorem addNewline_getLast (s : List Char) :
    (addNewlineIfNeeded s).getLast? = some '\n' := by
  unfold addNewlineIfNeeded
  by_cases h : s = [] ∨ s.getLast? ≠ some '\n'
  · rw [if_pos h]
    simp [List.getLast?_concat]
  · rw [if_neg h]
    push_neg at h
    exact h.2

theorem addNewline_length_le (s : List Char) :
    (addNewlineIfNeeded s).length ≤ s.length + 1 := by
  unfold addNewlineIfNeeded
  by_cases h : s = [] ∨ s.getLast? ≠ some '\n'
  · rw [if_pos h]
    simp
  · rw [if_neg h]
    omega

theorem logv_core (header msg : List Char) (hlen : header.length < 500) :
    logvEffects header msg =
      [LogEffect.write
        (addNewlineIfNeeded
          (if header.length + msg.length < 500 then header ++ msg
          else if header.length + msg.length < 30000 then header ++ msg
          else (header ++ msg).take 29999)),
       LogEffect.flush] := by
  unfold logvEffects
  by_cases h1 : header.length + msg.length < 500
  · rw [logvIter_fits 500 header msg h1, if_pos h1]
  · rw [logvIter_overflow 500 header msg (by omega) (by omega)]
    by_cases h3 : header.length + msg.length < 30000
    · rw [logvIter_fits 30000 header msg h3, if_neg h1, if_pos h3]
    · rw [logvIter_overflow 30000 header msg (by omega) (by omega), if_neg h1, if_neg h3]
      have htk : (header ++ msg).take 29999 =
          header ++ msg.take (30000 - header.length - 1) := by
        rw [List.take_append_eq_append_take, List.take_of_length_le (by omega)]
        have harith : (29999 : Nat) - header.length = 30000 - header.length - 1 := by omega
        rw [harith]
      rw [htk]

/-- C6: Logv emits exactly one write of one line followed by one flush.
The line is the header %04d/%02d/%02d-%02d:%02d:%02d.%03d (local time)
then the thread id in lowercase hex and the message, with a newline
appended only when the text does not already end in one; when header
plus message do not fit the 500-byte stack buffer the same line is
produced from the 30000-byte heap buffer; when even that overflows, the
text is truncated to the first 29999 bytes of the buffer and the last buffer
byte becomes the trailing newline — the emitted line always ends in a
newline and never exceeds the 30000-byte buffer. -/
theorem logv_line_format (st : SystemTime) (tid : Nat) (msg : List Char)
    (hy : st.wYear < 65536) (hmo : st.wMonth < 65536) (hda : st.wDay < 65536)
    (hh : st.wHour < 65536) (hmi : st.wMinute < 65536) (hs : st.wSecond < 65536)
    (hms : st.wMilliseconds < 65536) (htid : tid < 2 ^ 64) :
    (Logv st tid msg =
      [LogEffect.write
        (addNewlineIfNeeded
          (if (formatHeader st tid).length + msg.length < 500 then
            formatHeader st tid ++ msg
          else if (formatHeader st tid).length + msg.length < 30000 then
            formatHeader st tid ++ msg
          else (formatHeader st tid ++ msg).take 29999)),
       LogEffect.flush]) ∧
    (∀ l, Logv st tid msg = [LogEffect.write l, LogEffect.flush] →
      l.getLast? = some '\n' ∧ l.length ≤ 30000) := by
  have hlen : (formatHeader st tid).length ≤ 59 :=
    formatHeader_length_le st tid hy hmo hda hh hmi hs hms htid
  have hmain : Logv st tid msg =
      [LogEffect.write
        (addNewlineIfNeeded
          (if (formatHeader st tid).length + msg.length < 500 then
            formatHeader st tid ++ msg
          else if (formatHeader st tid).length + msg.length < 30000 then
            formatHeader st tid ++ msg
          else (formatHeader st tid ++ msg).take 29999)),
       LogEffect.flush] := by
    unfold Logv
    exact logv_core (formatHeader st tid) msg (by omega)
  refine ⟨hmain, ?_⟩
  intro l hl
  have hle : LogEffect.write l = LogEffect.write
      (addNewlineIfNeeded
        (if (formatHeader st tid).length + msg.length < 500 then
          formatHeader st tid ++ msg
        else if (formatHeader st tid).length + msg.length < 30000 then
          formatHeader st tid ++ msg
        else (formatHeader st tid ++ msg).take 29999)) := by
    have h0 := hl.symm.trans hmain
    injection h0 with ha hb
  have hleq : l = addNewlineIfNeeded
      (if (formatHeader st tid).length + msg.length < 500 then
        formatHeader st tid ++ msg
      else if (formatHeader st tid).length + msg.length < 30000 then
        formatHeader st tid ++ msg
      else (formatHeader st tid ++ msg).take 29999) := by
    injection hle
  have hbound : (if (formatHeader st tid).length + msg.length < 500 then
      formatHeader st tid ++ msg
    else if (formatHeader st tid).length + msg.length < 30000 then
      formatHeader st tid ++ msg
    else (formatHeader st tid ++ msg).take 29999).length ≤ 29999 := by
    by_cases h1 : (formatHeader st tid).length + msg.length < 500
    · rw [if_pos h1, List.length_append]
      omega
    · rw [if_neg h1]
      by_cases h3 : (formatHeader st tid).length + msg.length < 30000
      · rw [if_pos h3, List.length_append]
        omega
      · rw [if_neg h3, List.length_take]
        omega
  rw [hleq]
  exact ⟨addNewline_getLast _, Nat.le_trans (addNewline_length_le _) (by omega)⟩

/-- The local time used by the logging demonstration. -/
def logDemoTime : SystemTime :=
  { wYear := 2024, wMonth := 5, wDay := 3, wHour := 14, wMinute := 30, wSecond := 59,
    wMilliseconds := 7 }

theorem formatHeader_demo :
    formatHeader logDemoTime 255 = "2024/05/03-14:30:59.007 ff ".toList := by
  norm_num [formatHeader, padDec, decChars, hexChars, logDemoTime, Nat.digitChar]
  all_goals decide

/-- Witness for logv_line_format: a concrete call produces the
bit-exact line 2024/05/03-14:30:59.007 ff hello with a trailing
newline, written then flushed. -/
theorem logv_witness :
    Logv logDemoTime 255 "hello".toList =
      [LogEffect.write "2024/05/03-14:30:59.007 ff hello\n".toList, LogEffect.flush] := by
  rw [(logv_line_format logDemoTime 255 "hello".toList (by decide) (by decide) (by decide)
      (by decide) (by decide) (by decide) (by decide) (by decide)).1, formatHeader_demo]
  decide

end LevelDBPort
